import Mathlib

/-!
# A verification model of the `mempool` transaction priority queue

This file embeds the core of the `mempool` repository in Lean 4 and proves
properties of its priority ordering, its heap-draining loops, the actor
worker's drain protocol and the lock-based drain paths.

Source files embedded here:
* `libs/mempool/src/mempool.rs` — `Transaction` and its priority `Ord`.
* `libs/async_impl/src/channels/drain_strategy.rs` — `DrainStrategy`,
  `DrainRequest`.
* `libs/async_impl/src/channels/worker.rs` — the actor `Queue`:
  `handle_drain_max`, `handle_drain_waiting`, the `run` loop.
* `libs/async_impl/src/locks.rs` — the async `LockedQueue::drain`.
* `libs/sync/src/lock_based.rs` — the sync lock-based drain (the same
  pop-up-to-`n` loop).
* `stress_tester/src/http.rs` — the HTTP `drain_transactions` route.

Modelling conventions:
* `u64` values are modelled as `Nat` (the code only compares them, never
  does arithmetic that could wrap).
* `std::collections::BinaryHeap<Transaction>` is modelled as a list of
  transactions (`Heap`); `push` adds an element and `pop` removes a
  maximal element with respect to `Transaction.priority`.  The standard
  library leaves the order among equal-priority elements unspecified; the
  model fixes one legal choice (the earliest-listed maximal element).
* Time (`tokio::time::Instant`) is modelled as a `Nat` count of
  nanoseconds; `Duration::from_micros(t)` becomes `1000 * t` and
  `Duration::from_nanos(100)` becomes `100`.
* Code that panics (a `tokio::time::interval` with a zero period asserts
  a non-zero duration) is modelled as returning `none`.
* Channel/race outcomes that depend on the scheduler (did the consumer
  hang up, did the lock win the race against the timeout tick) are passed
  in as explicit oracle parameters.
-/

/-- `Transaction` from `libs/mempool/src/mempool.rs`.  `id` is an opaque
string, `gas_price` and `timestamp` are `u64` values (modelled as `Nat`),
`payload` an opaque byte sequence.  The derived `PartialEq`/`Eq` compare
all four fields, which `DecidableEq` mirrors. -/
structure Transaction where
  id : String
  gas_price : Nat
  timestamp : Nat
  payload : List Nat
deriving DecidableEq, Repr

instance : Inhabited Transaction := ⟨⟨"", 0, 0, []⟩⟩

/-- `Transaction::priority` from `libs/mempool/src/mempool.rs`:

    if self.gas_price != other.gas_price {
        return self.gas_price.cmp(&other.gas_price);
    }
    other.timestamp.cmp(&self.timestamp)

`impl Ord for Transaction` forwards `cmp` to this function, so this is the
order the `BinaryHeap` uses. -/
def Transaction.priority (a b : Transaction) : Ordering :=
  if a.gas_price ≠ b.gas_price then
    compare a.gas_price b.gas_price
  else
    compare b.timestamp a.timestamp

/-- `a` is at least as high priority as `b` (the comparison does not come
out `Less`). -/
def Transaction.pge (a b : Transaction) : Prop :=
  Transaction.priority a b ≠ Ordering.lt

instance (a b : Transaction) : Decidable (Transaction.pge a b) := by
  unfold Transaction.pge
  infer_instance

theorem priority_eq_gt_iff (a b : Transaction) :
    Transaction.priority a b = Ordering.gt ↔
      b.gas_price < a.gas_price ∨
        (a.gas_price = b.gas_price ∧ a.timestamp < b.timestamp) := by
  unfold Transaction.priority
  split
  · rename_i hne
    rw [Nat.compare_eq_gt]
    constructor
    · exact fun h => Or.inl h
    · rintro (h | ⟨h, _⟩)
      · exact h
      · exact absurd h hne
  · rename_i hne
    rw [not_not] at hne
    rw [Nat.compare_eq_gt]
    constructor
    · exact fun h => Or.inr ⟨hne, h⟩
    · rintro (h | ⟨_, h⟩)
      · omega
      · exact h

theorem priority_eq_lt_iff (a b : Transaction) :
    Transaction.priority a b = Ordering.lt ↔
      a.gas_price < b.gas_price ∨
        (a.gas_price = b.gas_price ∧ b.timestamp < a.timestamp) := by
  unfold Transaction.priority
  split
  · rename_i hne
    rw [Nat.compare_eq_lt]
    constructor
    · exact fun h => Or.inl h
    · rintro (h | ⟨h, _⟩)
      · exact h
      · exact absurd h hne
  · rename_i hne
    rw [not_not] at hne
    rw [Nat.compare_eq_lt]
    constructor
    · exact fun h => Or.inr ⟨hne, h⟩
    · rintro (h | ⟨_, h⟩)
      · omega
      · exact h

theorem priority_eq_eq_iff (a b : Transaction) :
    Transaction.priority a b = Ordering.eq ↔
      a.gas_price = b.gas_price ∧ a.timestamp = b.timestamp := by
  unfold Transaction.priority
  split
  · rename_i hne
    rw [Nat.compare_eq_eq]
    constructor
    · exact fun h => absurd h hne
    · rintro ⟨h, _⟩
      exact absurd h hne
  · rename_i hne
    rw [not_not] at hne
    rw [Nat.compare_eq_eq]
    constructor
    · exact fun h => ⟨hne, h.symm⟩
    · rintro ⟨_, h⟩
      exact h.symm

theorem pge_iff (a b : Transaction) :
    Transaction.pge a b ↔
      b.gas_price < a.gas_price ∨
        (a.gas_price = b.gas_price ∧ a.timestamp ≤ b.timestamp) := by
  unfold Transaction.pge
  rw [Ne, priority_eq_lt_iff]
  omega

/-- `priority` swaps: `a` compares `Greater` to `b` exactly when `b`
compares `Less` to `a`. -/
theorem priority_gt_iff_lt (a b : Transaction) :
    Transaction.priority a b = Ordering.gt ↔
      Transaction.priority b a = Ordering.lt := by
  rw [priority_eq_gt_iff, priority_eq_lt_iff]
  omega

theorem pge_trans {a b c : Transaction} (hab : Transaction.pge a b)
    (hbc : Transaction.pge b c) : Transaction.pge a c := by
  rw [pge_iff] at hab hbc ⊢
  omega

/-! ## The priority store: `std::collections::BinaryHeap<Transaction>`

The store is modelled by its contents.  `push` is `BinaryHeap::push`;
`pop` is `BinaryHeap::pop`, which removes and returns a greatest element
with respect to the `Ord` instance (`Transaction.priority`).  Ties are
resolved by taking the earliest-listed maximal element, one of the
behaviours the standard library permits. -/

abbrev Heap : Type := List Transaction

/-- `BinaryHeap::push`. -/
def Heap.push (storage : Heap) (t : Transaction) : Heap := t :: storage

/-- `BinaryHeap::pop`: remove and return a maximal element (`none` on an
empty heap). -/
def Heap.pop : Heap → Option (Transaction × Heap)
  | [] => none
  | t :: ts =>
    match Heap.pop ts with
    | none => some (t, [])
    | some (m, rest) =>
      if Transaction.priority t m = Ordering.lt then some (m, t :: rest)
      else some (t, ts)

/-- `Heap.length` is `BinaryHeap::len`. -/
def Heap.length (storage : Heap) : Nat := List.length storage

theorem Heap.pop_eq_none_iff (h : Heap) : Heap.pop h = none ↔ h = [] := by
  cases h with
  | nil => simp [Heap.pop]
  | cons t ts =>
    simp only [Heap.pop]
    constructor
    · intro hc
      cases hpop : Heap.pop ts with
      | none => rw [hpop] at hc; simp at hc
      | some p =>
        rw [hpop] at hc
        obtain ⟨m, rest⟩ := p
        by_cases hlt : Transaction.priority t m = Ordering.lt <;> simp [hlt] at hc
    · intro hc
      exact absurd hc (List.cons_ne_nil t ts)

theorem Heap.pop_perm {h : Heap} {m : Transaction} {rest : Heap}
    (hpop : Heap.pop h = some (m, rest)) : List.Perm h (m :: rest) := by
  induction h generalizing m rest with
  | nil => simp [Heap.pop] at hpop
  | cons t ts ih =>
    simp only [Heap.pop] at hpop
    cases hts : Heap.pop ts with
    | none =>
      rw [hts] at hpop
      simp only [Option.some.injEq, Prod.mk.injEq] at hpop
      obtain ⟨rfl, rfl⟩ := hpop
      have : ts = [] := (Heap.pop_eq_none_iff ts).mp hts
      subst this
      exact List.Perm.refl _
    | some p =>
      obtain ⟨m', rest'⟩ := p
      rw [hts] at hpop
      by_cases hlt : Transaction.priority t m' = Ordering.lt
      · simp only [hlt, if_true, Option.some.injEq, Prod.mk.injEq] at hpop
        obtain ⟨rfl, rfl⟩ := hpop
        exact ((ih hts).cons t).trans (List.Perm.swap m' t rest')
      · simp only [hlt, if_false, Option.some.injEq, Prod.mk.injEq] at hpop
        obtain ⟨rfl, rfl⟩ := hpop
        exact List.Perm.refl _

/-- The element returned by `pop` has at-least-as-high priority as every
element left in the heap. -/
theorem Heap.pop_max {h : Heap} {m : Transaction} {rest : Heap}
    (hpop : Heap.pop h = some (m, rest)) :
    ∀ x ∈ rest, Transaction.pge m x := by
  induction h generalizing m rest with
  | nil => simp [Heap.pop] at hpop
  | cons t ts ih =>
    simp only [Heap.pop] at hpop
    cases hts : Heap.pop ts with
    | none =>
      rw [hts] at hpop
      simp only [Option.some.injEq, Prod.mk.injEq] at hpop
      obtain ⟨rfl, rfl⟩ := hpop
      intro x hx
      exact absurd hx (List.not_mem_nil x)
    | some p =>
      obtain ⟨m', rest'⟩ := p
      rw [hts] at hpop
      by_cases hlt : Transaction.priority t m' = Ordering.lt
      · simp only [hlt, if_true, Option.some.injEq, Prod.mk.injEq] at hpop
        obtain ⟨rfl, rfl⟩ := hpop
        intro x hx
        rcases List.mem_cons.mp hx with rfl | hx'
        · unfold Transaction.pge
          rw [← priority_gt_iff_lt] at hlt
          rw [priority_eq_gt_iff] at hlt
          rw [Ne, priority_eq_lt_iff]
          omega
        · exact ih hts x hx'
      · simp only [hlt, if_false, Option.some.injEq, Prod.mk.injEq] at hpop
        obtain ⟨rfl, rfl⟩ := hpop
        intro x hx
        have hmem : x ∈ m' :: rest' := (Heap.pop_perm hts).mem_iff.mp hx
        rcases List.mem_cons.mp hmem with rfl | hx'
        · exact hlt
        · exact pge_trans hlt (ih hts x hx')

/-! ## The pop-up-to-`n` drain loop

The loop

    for _ in 0..n {
        let Some(item) = storage.pop() else { break; };
        drained.push(item);
    }

appears verbatim in `Queue::handle_drain_max`
(`libs/async_impl/src/channels/worker.rs`), in the async
`LockedQueue::drain` (`libs/async_impl/src/locks.rs`) and in the sync
`LockedQueue::drain` (`libs/sync/src/lock_based.rs`).  `drainLoop n h`
returns the drained items in pop order together with the remaining heap. -/

def drainLoop : Nat → Heap → List Transaction × Heap
  | 0, h => ([], h)
  | n + 1, h =>
    match Heap.pop h with
    | none => ([], h)
    | some (m, rest) =>
      let p := drainLoop n rest
      (m :: p.1, p.2)

theorem drainLoop_length_le (n : Nat) (h : Heap) :
    (drainLoop n h).1.length ≤ n := by
  induction n generalizing h with
  | zero => simp [drainLoop]
  | succ k ih =>
    simp only [drainLoop]
    cases hpop : Heap.pop h with
    | none => simp
    | some p =>
      obtain ⟨m, rest⟩ := p
      simpa using Nat.succ_le_succ (ih rest)

/-- Drained items plus the remaining heap are a permutation of the
original heap: nothing is lost, nothing is duplicated. -/
theorem drainLoop_perm (n : Nat) (h : Heap) :
    List.Perm ((drainLoop n h).1 ++ (drainLoop n h).2) h := by
  induction n generalizing h with
  | zero => simp [drainLoop]
  | succ k ih =>
    simp only [drainLoop]
    cases hpop : Heap.pop h with
    | none => simp
    | some p =>
      obtain ⟨m, rest⟩ := p
      have hperm := Heap.pop_perm hpop
      simp only [List.cons_append]
      exact ((ih rest).cons m).trans hperm.symm

theorem drainLoop_mem_of_mem_result {n : Nat} {h : Heap} {x : Transaction}
    (hx : x ∈ (drainLoop n h).1) : x ∈ h := by
  have := (drainLoop_perm n h).mem_iff.mp (List.mem_append_left _ hx)
  exact this

theorem drainLoop_mem_of_mem_rest {n : Nat} {h : Heap} {x : Transaction}
    (hx : x ∈ (drainLoop n h).2) : x ∈ h := by
  exact (drainLoop_perm n h).mem_iff.mp (List.mem_append_right _ hx)

/-- The drained items come out in non-increasing priority order. -/
theorem drainLoop_chain (n : Nat) (h : Heap) :
    List.Chain' Transaction.pge (drainLoop n h).1 := by
  induction n generalizing h with
  | zero => simp [drainLoop]
  | succ k ih =>
    simp only [drainLoop]
    cases hpop : Heap.pop h with
    | none => simp
    | some p =>
      obtain ⟨m, rest⟩ := p
      simp only
      rw [List.chain'_cons']
      refine ⟨?_, ih rest⟩
      intro y hy
      have hyr : y ∈ (drainLoop k rest).1 := List.mem_of_mem_head? hy
      exact Heap.pop_max hpop y (drainLoop_mem_of_mem_result hyr)

/-- Every element still in the heap after the loop has priority at most
that of the last drained item. -/
theorem drainLoop_last_ge {n : Nat} {h : Heap} {last : Transaction}
    (hlast : (drainLoop n h).1.getLast? = some last) :
    ∀ s ∈ (drainLoop n h).2, Transaction.pge last s := by
  induction n generalizing h with
  | zero => simp [drainLoop] at hlast
  | succ k ih =>
    simp only [drainLoop] at hlast ⊢
    cases hpop : Heap.pop h with
    | none => rw [hpop] at hlast; simp at hlast
    | some p =>
      obtain ⟨m, rest⟩ := p
      rw [hpop] at hlast
      simp only at hlast ⊢
      cases hres : (drainLoop k rest).1 with
      | nil =>
        rw [hres] at hlast
        simp only [List.getLast?_singleton, Option.some.injEq] at hlast
        subst hlast
        intro s hs
        exact Heap.pop_max hpop s (drainLoop_mem_of_mem_rest hs)
      | cons y ys =>
        rw [hres, List.getLast?_cons_cons, ← hres] at hlast
        exact ih hlast

/-! ## The actor engine: `DrainStrategy`, `DrainRequest`, `Queue`

From `libs/async_impl/src/channels/drain_strategy.rs` and
`libs/async_impl/src/channels/worker.rs`.  Instants are `Nat`
nanoseconds.  The single-use reply handle (`send_back`) is modelled by a
`consumerAlive` oracle: `send` on a `oneshot::Sender` succeeds exactly
when the receiver is still alive. -/

/-- `DrainStrategy`: `DrainMax` drains up to `n` immediately; `WaitForN`
waits until the store holds `n` items or `timeout` (an `Instant`) is
reached, then degrades to `DrainMax`. -/
inductive DrainStrategy where
  | DrainMax (n : Nat)
  | WaitForN (n : Nat) (timeout : Nat)
deriving DecidableEq, Repr

/-- `DrainStrategy::new_timeout(n, timeout_us)` evaluated when the clock
reads `now`: the deadline is `Instant::now() + Duration::from_micros
(timeout_us)`. -/
def DrainStrategy.new_timeout (n : Nat) (timeout_us : Nat) (now : Nat) :
    DrainStrategy :=
  DrainStrategy.WaitForN n (now + 1000 * timeout_us)

/-- `DrainRequest` (without its reply handle, which is modelled as an
oracle at the point of delivery). -/
structure DrainRequest where
  n : Nat
  wait_strategy : DrainStrategy
deriving DecidableEq, Repr

/-- `Queue::DRAIN_RETRY_DELAY = Duration::from_nanos(100)`. -/
def DRAIN_RETRY_DELAY : Nat := 100

/-- Outcome of `req.send_back.send(drained)`: `delivered` when the
consumer still holds the receiving end, otherwise the items are dropped
after the logged warning (`inspect_err(...)`, then `.ok()`). -/
inductive Delivery where
  | delivered (items : List Transaction)
  | discardedWithWarning (items : List Transaction)
deriving DecidableEq, Repr

/-- The drained items carried by a `Delivery`. -/
def Delivery.items : Delivery → List Transaction
  | Delivery.delivered items => items
  | Delivery.discardedWithWarning items => items

/-- `Queue::handle_drain_max`: pop up to `req.n` items, then attempt to
deliver them through the reply handle; a failed delivery is logged and the
items are discarded (the function never fails).  Returns the delivery
outcome and the storage left behind. -/
def Queue.handle_drain_max (req : DrainRequest) (storage : Heap)
    (consumerAlive : Bool) : Delivery × Heap :=
  let p := drainLoop req.n storage
  (if consumerAlive then Delivery.delivered p.1
    else Delivery.discardedWithWarning p.1, p.2)

/-- What one call of `Queue::handle_drain_waiting` does: nothing (the
`DrainMax` match arm returns immediately), or drain-and-deliver via
`handle_drain_max`, or sleep `DRAIN_RETRY_DELAY` and re-send a request to
the drain-request channel. -/
inductive WaitAction where
  | nop
  | deliver (outcome : Delivery) (rest : Heap)
  | sleepAndResend (req : DrainRequest)
deriving DecidableEq, Repr

/-- `Queue::handle_drain_waiting`, evaluated when `Instant::now()` reads
`now`:

    let timeout = match req.wait_strategy {
        DrainStrategy::DrainMax => return,
        DrainStrategy::WaitForN(timeout) => timeout,
    };
    if (storage.len() >= req.n) || (Instant::now() + Self::DRAIN_RETRY_DELAY > timeout) {
        Self::handle_drain_max(req, storage);
        return;
    }
    tokio::time::sleep(Self::DRAIN_RETRY_DELAY).await;
    drain_request_source.send(req).await ... ;
-/
def Queue.handle_drain_waiting (req : DrainRequest) (storage : Heap)
    (now : Nat) (consumerAlive : Bool) : WaitAction :=
  match req.wait_strategy with
  | DrainStrategy.DrainMax _ => WaitAction.nop
  | DrainStrategy.WaitForN _ timeout =>
    if Heap.length storage ≥ req.n ∨ now + DRAIN_RETRY_DELAY > timeout then
      let p := Queue.handle_drain_max req storage consumerAlive
      WaitAction.deliver p.1 p.2
    else
      WaitAction.sleepAndResend req

/-- One event observed by the `select!` in `Queue::run`: a received
submission, a received drain request, or a closed channel (`recv()`
returned `None`). -/
inductive ActorEvent where
  | submitted (t : Transaction)
  | submitChannelClosed
  | drainRequested (req : DrainRequest) (now : Nat) (consumerAlive : Bool)
  | drainChannelClosed
deriving DecidableEq, Repr

/-- Visible side effect of one actor-loop iteration. -/
inductive ActorEffect where
  | noEffect
  | delivery (outcome : Delivery)
  | requeued (req : DrainRequest)
deriving DecidableEq, Repr

/-- One iteration of the `loop` in `Queue::run`.  `none` means the loop
body evaluated `?` on a closed channel, so `run` returned `None` and the
actor terminated; `some (storage, effect)` means the loop continues with
the new storage. -/
def Queue.runStep (storage : Heap) : ActorEvent → Option (Heap × ActorEffect)
  | ActorEvent.submitted t => some (Heap.push storage t, ActorEffect.noEffect)
  | ActorEvent.submitChannelClosed => none
  | ActorEvent.drainChannelClosed => none
  | ActorEvent.drainRequested req now consumerAlive =>
    match req.wait_strategy with
    | DrainStrategy.DrainMax _ =>
      let p := Queue.handle_drain_max req storage consumerAlive
      some (p.2, ActorEffect.delivery p.1)
    | DrainStrategy.WaitForN _ _ =>
      match Queue.handle_drain_waiting req storage now consumerAlive with
      | WaitAction.nop => some (storage, ActorEffect.noEffect)
      | WaitAction.deliver outcome rest =>
        some (rest, ActorEffect.delivery outcome)
      | WaitAction.sleepAndResend r => some (storage, ActorEffect.requeued r)

/-! ## Submit/drain sequences for the no-loss/no-duplication invariant

A run of the actor that first handles a list of submissions and then a
list of `DrainMax` requests, exactly as `Queue::run` would process them
one event per iteration. -/

/-- Handle a sequence of submissions: each one is `storage.push(t)`. -/
def runSubmits (submits : List Transaction) (storage : Heap) : Heap :=
  List.foldl Heap.push storage submits

/-- Handle a sequence of `DrainMax` drain requests with sizes `ns`,
collecting each drained batch. -/
def runDrains : List Nat → Heap → List (List Transaction) × Heap
  | [], storage => ([], storage)
  | n :: ns, storage =>
    let p := drainLoop n storage
    let q := runDrains ns p.2
    (p.1 :: q.1, q.2)

theorem runSubmits_perm (submits : List Transaction) (storage : Heap) :
    List.Perm (runSubmits submits storage) (submits ++ storage) := by
  induction submits generalizing storage with
  | nil => simp [runSubmits]
  | cons t ts ih =>
    simp only [runSubmits, List.foldl_cons, List.cons_append]
    exact (ih (Heap.push storage t)).trans List.perm_middle

theorem runDrains_perm (ns : List Nat) (storage : Heap) :
    List.Perm ((runDrains ns storage).1.flatten ++ (runDrains ns storage).2)
      storage := by
  induction ns generalizing storage with
  | nil => simp [runDrains]
  | cons n ns ih =>
    simp only [runDrains, List.flatten_cons, List.append_assoc]
    exact (List.Perm.append_left _ (ih (drainLoop n storage).2)).trans
      (drainLoop_perm n storage)

/-! ## The lock engines

`libs/async_impl/src/locks.rs` (async) and `libs/sync/src/lock_based.rs`
(sync).  The async drain builds
`tokio::time::interval(Duration::from_micros(timeout_us))`, and a tokio
interval panics when its period is zero; the panic is modelled as `none`.
Which arm of the `select!` fires first — the timeout tick or the lock
acquisition — depends on the scheduler and is passed in as the
`lockAcquiredFirst` oracle. -/

/-- `anyhow::Result<Vec<Transaction>>` as returned by `Mempool::drain`:
`ok` carries the drained items; `err` is never produced by
`LockedQueue::drain`, which returns `Ok` on both select arms. -/
inductive DrainResult where
  | ok (items : List Transaction)
  | err
deriving DecidableEq, Repr

/-- The async `LockedQueue::drain(n, timeout_us)` from
`libs/async_impl/src/locks.rs`:

    let mut interval = tokio::time::interval(Duration::from_micros(timeout_us));
    interval.tick().await;
    let mut drained_items = Vec::with_capacity(n);
    tokio::select! {
        _ = interval.tick() => { /* timeout reached */ }
        mut storage = self.storage.lock() => { /* pop up to n */ }
    }
    Ok(drained_items)

`tokio::time::interval` asserts a non-zero period, so `timeout_us = 0`
panics (modelled as `none`) before either select arm can run. -/
def LockedQueue.drain (n : Nat) (timeout_us : Nat) (lockAcquiredFirst : Bool)
    (storage : Heap) : Option (DrainResult × Heap) :=
  if timeout_us = 0 then none
  else if lockAcquiredFirst then
    let p := drainLoop n storage
    some (DrainResult.ok p.1, p.2)
  else
    some (DrainResult.ok [], storage)

/-- The sync `LockedQueue::drain(n)` from `libs/sync/src/lock_based.rs`:
take the mutex, then run the pop-up-to-`n` loop. -/
def LockedQueueSync.drain (n : Nat) (storage : Heap) :
    List Transaction × Heap :=
  drainLoop n storage

/-! ## The HTTP facade drain route

`drain_transactions` from `stress_tester/src/http.rs`.  It also builds
`tokio::time::interval(Duration::from_micros(timeout_us))` before doing
anything else, so `timeout_us = 0` panics here too.  The oracle
`raceResult` resolves the `select!` between the reply channel and the
second interval tick: `none` means the tick won (408), `some none` means
the reply channel errored (500), `some (some v)` means the reply `v`
arrived (200). -/

inductive HttpResponse where
  | okJson (txs : List Transaction)
  | internalServerError
  | requestTimeout
deriving DecidableEq, Repr

def drain_transactions (_n : Nat) (timeout_us : Nat) (sendOk : Bool)
    (raceResult : Option (Option (List Transaction))) : Option HttpResponse :=
  if timeout_us = 0 then none
  else if sendOk = false then some HttpResponse.internalServerError
  else
    match raceResult with
    | some (some v) => some (HttpResponse.okJson v)
    | some none => some HttpResponse.internalServerError
    | none => some HttpResponse.requestTimeout

/-! ## Concrete transactions used by the witnesses -/

def txAlpha : Transaction := ⟨"alpha", 20, 50, []⟩

def txBeta : Transaction := ⟨"beta", 10, 100, []⟩

def txGamma : Transaction := ⟨"gamma", 10, 200, [7]⟩

/-! ## Claim theorems -/

/-- C1: for all transactions `a, b`, the comparison is `Greater` exactly
when `a.gas_price > b.gas_price` or (`a.gas_price = b.gas_price` and
`a.timestamp < b.timestamp`); it is `Equal` exactly when gas price and
timestamp both agree; and `id` and `payload` never influence the
result. -/
theorem claim_c1_priority_order (a b : Transaction) :
    (Transaction.priority a b = Ordering.gt ↔
      (b.gas_price < a.gas_price ∨
        (a.gas_price = b.gas_price ∧ a.timestamp < b.timestamp))) ∧
    (Transaction.priority a b = Ordering.eq ↔
      (a.gas_price = b.gas_price ∧ a.timestamp = b.timestamp)) ∧
    (∀ (i₁ i₂ : String) (p₁ p₂ : List Nat),
      Transaction.priority ⟨i₁, a.gas_price, a.timestamp, p₁⟩
        ⟨i₂, b.gas_price, b.timestamp, p₂⟩ = Transaction.priority a b) := by
  refine ⟨priority_eq_gt_iff a b, priority_eq_eq_iff a b, ?_⟩
  intro i₁ i₂ p₁ p₂
  simp [Transaction.priority]

/-- C10: `cmp` (which is `Transaction.priority`) can return `Equal` on
structurally different transactions: it inspects only `gas_price` and
`timestamp`, while derived equality also compares `id` and `payload`. -/
theorem claim_c10_ord_eq_inconsistent :
    Transaction.priority ⟨"a", 10, 100, []⟩ ⟨"b", 10, 100, [1]⟩ =
        Ordering.eq ∧
      (⟨"a", 10, 100, []⟩ : Transaction) ≠ ⟨"b", 10, 100, [1]⟩ := by
  decide

/-- C2: a single drain — `Queue::handle_drain_max` in the actor engine,
and the async `LockedQueue::drain` of the lock engine — returns at most
`n` transactions, in non-increasing priority order. -/
theorem claim_c2_drain_bounded_monotone (n m timeout_us : Nat)
    (storage : Heap) (consumerAlive lockAcquiredFirst : Bool)
    (items : List Transaction) (rest : Heap)
    (hlock : LockedQueue.drain n timeout_us lockAcquiredFirst storage =
      some (DrainResult.ok items, rest)) :
    ((Queue.handle_drain_max ⟨n, DrainStrategy.DrainMax m⟩ storage
          consumerAlive).1.items.length ≤ n ∧
      List.Chain' Transaction.pge
        (Queue.handle_drain_max ⟨n, DrainStrategy.DrainMax m⟩ storage
          consumerAlive).1.items) ∧
    (items.length ≤ n ∧ List.Chain' Transaction.pge items) := by
  constructor
  · have hitems : (Queue.handle_drain_max ⟨n, DrainStrategy.DrainMax m⟩
        storage consumerAlive).1.items = (drainLoop n storage).1 := by
      unfold Queue.handle_drain_max
      cases consumerAlive <;> simp [Delivery.items]
    rw [hitems]
    exact ⟨drainLoop_length_le n storage, drainLoop_chain n storage⟩
  · unfold LockedQueue.drain at hlock
    by_cases hz : timeout_us = 0
    · simp [hz] at hlock
    · cases lockAcquiredFirst with
      | true =>
        simp only [hz, if_false, if_true] at hlock
        have : items = (drainLoop n storage).1 := by
          simp only [Option.some.injEq, Prod.mk.injEq, DrainResult.ok.injEq] at hlock
          exact hlock.1.symm
        rw [this]
        exact ⟨drainLoop_length_le n storage, drainLoop_chain n storage⟩
      | false =>
        simp only [hz, if_false, Bool.false_eq_true] at hlock
        have : items = [] := by
          simp only [Option.some.injEq, Prod.mk.injEq, DrainResult.ok.injEq] at hlock
          exact hlock.1.symm
        rw [this]
        simp

/-- Witness for C2 at a concrete input: two transactions drained with
`n = 2` through the lock engine with the lock acquired in time. -/
theorem claim_c2_drain_bounded_monotone_witness :
    (LockedQueue.drain 2 1 true [txBeta, txAlpha] =
      some (DrainResult.ok [txAlpha, txBeta], [])) ∧
    (((Queue.handle_drain_max ⟨2, DrainStrategy.DrainMax 2⟩
          [txBeta, txAlpha] true).1.items.length ≤ 2 ∧
      List.Chain' Transaction.pge
        (Queue.handle_drain_max ⟨2, DrainStrategy.DrainMax 2⟩
          [txBeta, txAlpha] true).1.items) ∧
    ([txAlpha, txBeta].length ≤ 2 ∧
      List.Chain' Transaction.pge [txAlpha, txBeta])) :=
  ⟨by decide,
    claim_c2_drain_bounded_monotone 2 2 1 [txBeta, txAlpha] true true
      [txAlpha, txBeta] [] (by decide)⟩

/-- C3: starting from an empty store, after a sequence of successful
submits `S` every submitted transaction is in the store; and after an
exhaustive sequence of `DrainMax` drains (one that leaves the store
empty), the drained batches taken together are a permutation of `S` —
no transaction is lost and none is returned twice (each occurrence of a
submitted transaction appears in the drain results exactly as often as it
was submitted, hence is returned by at most one drain). -/
theorem claim_c3_no_loss_no_duplication (S : List Transaction)
    (ns : List Nat)
    (hexhaustive : (runDrains ns (runSubmits S [])).2 = []) :
    List.Perm (runDrains ns (runSubmits S [])).1.flatten S ∧
    (∀ t ∈ S, t ∈ runSubmits S []) ∧
    (∀ t : Transaction,
      ((runDrains ns (runSubmits S [])).1.flatten).count t = S.count t) := by
  have hsub : List.Perm (runSubmits S []) S := by
    simpa using runSubmits_perm S []
  have hperm : List.Perm (runDrains ns (runSubmits S [])).1.flatten S := by
    have h1 := runDrains_perm ns (runSubmits S [])
    rw [hexhaustive, List.append_nil] at h1
    exact h1.trans hsub
  refine ⟨hperm, ?_, ?_⟩
  · intro t ht
    exact hsub.mem_iff.mpr ht
  · intro t
    exact hperm.count_eq t

/-- Witness for C3: submit two transactions, then one exhaustive drain of
size 3. -/
theorem claim_c3_no_loss_no_duplication_witness :
    ((runDrains [3] (runSubmits [txBeta, txAlpha] [])).2 = []) ∧
    List.Perm (runDrains [3] (runSubmits [txBeta, txAlpha] [])).1.flatten
      [txBeta, txAlpha] ∧
    txBeta ∈ runSubmits [txBeta, txAlpha] [] ∧
    ((runDrains [3] (runSubmits [txBeta, txAlpha] [])).1.flatten).count
        txBeta = ([txBeta, txAlpha]).count txBeta :=
  ⟨by decide,
    (claim_c3_no_loss_no_duplication [txBeta, txAlpha] [3] (by decide)).1,
    (claim_c3_no_loss_no_duplication [txBeta, txAlpha] [3] (by decide)).2.1
      txBeta (by decide),
    (claim_c3_no_loss_no_duplication [txBeta, txAlpha] [3] (by decide)).2.2
      txBeta⟩

/-- C4: `Queue::handle_drain_waiting` on a `WaitForN` request follows the
three-step cascade: if the store already holds at least `req.n` items it
is handled as `DrainMax` and delivered at once; otherwise, if
`now + DRAIN_RETRY_DELAY` exceeds the deadline, it degrades to `DrainMax`
(returning whatever is present, possibly nothing); otherwise the actor
sleeps for the retry quantum and re-sends the *same* request to the
drain-request channel. -/
theorem claim_c4_waitforn_cascade (n m timeout now : Nat) (storage : Heap)
    (consumerAlive : Bool) :
    Queue.handle_drain_waiting ⟨n, DrainStrategy.WaitForN m timeout⟩ storage
        now consumerAlive =
      if n ≤ Heap.length storage then
        WaitAction.deliver
          (Queue.handle_drain_max ⟨n, DrainStrategy.WaitForN m timeout⟩
            storage consumerAlive).1
          (Queue.handle_drain_max ⟨n, DrainStrategy.WaitForN m timeout⟩
            storage consumerAlive).2
      else if timeout < now + DRAIN_RETRY_DELAY then
        WaitAction.deliver
          (Queue.handle_drain_max ⟨n, DrainStrategy.WaitForN m timeout⟩
            storage consumerAlive).1
          (Queue.handle_drain_max ⟨n, DrainStrategy.WaitForN m timeout⟩
            storage consumerAlive).2
      else
        WaitAction.sleepAndResend ⟨n, DrainStrategy.WaitForN m timeout⟩ := by
  unfold Queue.handle_drain_waiting
  by_cases h1 : n ≤ Heap.length storage
  · have : Heap.length storage ≥ n ∨ now + DRAIN_RETRY_DELAY > timeout :=
      Or.inl h1
    simp [this, h1]
  · by_cases h2 : timeout < now + DRAIN_RETRY_DELAY
    · have : Heap.length storage ≥ n ∨ now + DRAIN_RETRY_DELAY > timeout :=
        Or.inr h2
      simp [this, h1, h2]
    · have : ¬(Heap.length storage ≥ n ∨ now + DRAIN_RETRY_DELAY > timeout) := by
        push_neg
        exact ⟨by omega, by omega⟩
      simp [this, h1, h2]

/-- C5: after a drain returns a non-empty batch, every transaction still
in the store compares at most equal to the last (lowest-priority) drained
item — the drain removed a maximal-priority prefix.  `drainLoop` is the
pop loop shared by `Queue::handle_drain_max` and the lock engines'
`drain`. -/
theorem claim_c5_global_priority (n : Nat) (storage : Heap)
    (last : Transaction)
    (hlast : (drainLoop n storage).1.getLast? = some last) :
    ∀ s ∈ (drainLoop n storage).2,
      Transaction.priority s last ≠ Ordering.gt := by
  intro s hs
  have hge : Transaction.pge last s := drainLoop_last_ge hlast s hs
  intro hgt
  rw [priority_gt_iff_lt] at hgt
  exact hge hgt

/-- Witness for C5: drain one of two transactions; the remaining one has
lower priority than the drained one. -/
theorem claim_c5_global_priority_witness :
    ((drainLoop 1 [txBeta, txAlpha]).1.getLast? = some txAlpha) ∧
    (txBeta ∈ (drainLoop 1 [txBeta, txAlpha]).2) ∧
    Transaction.priority txBeta txAlpha ≠ Ordering.gt :=
  ⟨by decide, by decide,
    claim_c5_global_priority 1 [txBeta, txAlpha] txAlpha (by decide) txBeta
      (by decide)⟩

/-- C6: a drain request created with `timeout_us = 0` (its deadline is
its creation instant) is resolved by `handle_drain_waiting` on its first
handling: since the actor handles it no earlier than it was created, the
deadline test fires immediately and the request is handled as `DrainMax`
— no retry sleep, no re-enqueueing, up to `n` immediately available items
(possibly none) are delivered. -/
theorem claim_c6_zero_timeout_is_drainmax (n : Nat) (storage : Heap)
    (created handled : Nat) (consumerAlive : Bool)
    (hmono : created ≤ handled) :
    Queue.handle_drain_waiting ⟨n, DrainStrategy.new_timeout n 0 created⟩
        storage handled consumerAlive =
      WaitAction.deliver
        (Queue.handle_drain_max ⟨n, DrainStrategy.new_timeout n 0 created⟩
          storage consumerAlive).1
        (Queue.handle_drain_max ⟨n, DrainStrategy.new_timeout n 0 created⟩
          storage consumerAlive).2 := by
  unfold DrainStrategy.new_timeout Queue.handle_drain_waiting
  have hcond : Heap.length storage ≥ n ∨
      handled + DRAIN_RETRY_DELAY > created + 1000 * 0 := by
    right
    unfold DRAIN_RETRY_DELAY
    omega
  simp only [hcond, if_true]

/-- Witness for C6 on an empty store handled at the creation instant. -/
theorem claim_c6_zero_timeout_is_drainmax_witness :
    (0 ≤ 0) ∧
    Queue.handle_drain_waiting ⟨1, DrainStrategy.new_timeout 1 0 0⟩ [] 0 true =
      WaitAction.deliver
        (Queue.handle_drain_max ⟨1, DrainStrategy.new_timeout 1 0 0⟩ [] true).1
        (Queue.handle_drain_max ⟨1, DrainStrategy.new_timeout 1 0 0⟩ [] true).2 :=
  ⟨by decide, claim_c6_zero_timeout_is_drainmax 1 [] 0 0 true (by decide)⟩

/-- C7 counterexample: with `timeout_us = 0` the async `LockedQueue::drain`
does not return an empty sequence as a success value when the deadline
expires before acquisition — it panics while constructing the zero-period
tokio interval (modelled as `none`), contradicting the claim as stated for
every `timeout_us`. -/
theorem claim_c7_counterexample :
    LockedQueue.drain 1 0 false [txAlpha] = none ∧
    LockedQueue.drain 1 0 false [txAlpha] ≠
      some (DrainResult.ok [], [txAlpha]) := by
  decide

/-- C7 (amended: for `timeout_us ≥ 1`): if the mutex is acquired before
the deadline, up to `n` items are popped and returned; if the deadline
expires first, the empty sequence is returned; the `Ok` constructor is
returned in both branches, never an error; and the timeout constrains
only the lock wait — the result does not depend on `timeout_us` once the
race is resolved. -/
theorem claim_c7_lock_drain_ok (n timeout_us : Nat)
    (lockAcquiredFirst : Bool) (storage : Heap) (hnz : timeout_us ≠ 0) :
    LockedQueue.drain n timeout_us lockAcquiredFirst storage =
      some (if lockAcquiredFirst then
          (DrainResult.ok (drainLoop n storage).1, (drainLoop n storage).2)
        else (DrainResult.ok [], storage)) := by
  unfold LockedQueue.drain
  cases lockAcquiredFirst <;> simp [hnz]

/-- Witness for C7 (amended) in both race outcomes, via two instances of
the same concrete store. -/
theorem claim_c7_lock_drain_ok_witness :
    ((1 : Nat) ≠ 0) ∧
    LockedQueue.drain 1 1 true [txBeta, txAlpha] =
      some (if true then
          (DrainResult.ok (drainLoop 1 [txBeta, txAlpha]).1,
            (drainLoop 1 [txBeta, txAlpha]).2)
        else (DrainResult.ok [], [txBeta, txAlpha])) :=
  ⟨by decide, claim_c7_lock_drain_ok 1 1 true [txBeta, txAlpha] (by decide)⟩

/-- C8: the actor survives a hung-up consumer and stops cleanly on a
closed submission channel.  A `DrainMax` request whose reply handle was
dropped (`consumerAlive = false`) still pops the items, the delivery
attempt fails and the items are discarded with the logged warning, the
store is left without them, and the loop continues (`some`); a closed
submission channel makes `run` return (`none`), terminating the actor
cleanly. -/
theorem claim_c8_protocol_error_tolerance (n m now : Nat) (storage : Heap) :
    Queue.runStep storage
        (ActorEvent.drainRequested ⟨n, DrainStrategy.DrainMax m⟩ now false) =
      some ((drainLoop n storage).2,
        ActorEffect.delivery
          (Delivery.discardedWithWarning (drainLoop n storage).1)) ∧
    Queue.runStep storage ActorEvent.submitChannelClosed = none := by
  constructor
  · simp [Queue.runStep, Queue.handle_drain_max]
  · rfl

/-- C9: the async lock engine's `drain` and the HTTP `drain_transactions`
route both construct a tokio interval from `timeout_us`, so both panic at
`timeout_us = 0` (modelled as `none`) and both are total for
`timeout_us ≥ 1`. -/
theorem claim_c9_zero_timeout_panics (n timeout_us : Nat)
    (lockAcquiredFirst sendOk : Bool) (storage : Heap)
    (raceResult : Option (Option (List Transaction)))
    (hpos : 1 ≤ timeout_us) :
    LockedQueue.drain n 0 lockAcquiredFirst storage = none ∧
    drain_transactions n 0 sendOk raceResult = none ∧
    (LockedQueue.drain n timeout_us lockAcquiredFirst storage).isSome =
      true ∧
    (drain_transactions n timeout_us sendOk raceResult).isSome = true := by
  have hnz : timeout_us ≠ 0 := by omega
  refine ⟨rfl, rfl, ?_, ?_⟩
  · unfold LockedQueue.drain
    cases lockAcquiredFirst <;> simp [hnz]
  · unfold drain_transactions
    cases sendOk with
    | false => simp [hnz]
    | true =>
      cases raceResult with
      | none => simp [hnz]
      | some r => cases r <;> simp [hnz]

/-- Witness for C9 with `timeout_us = 1`. -/
theorem claim_c9_zero_timeout_panics_witness :
    ((1 : Nat) ≤ 1) ∧
    LockedQueue.drain 1 0 true [txAlpha] = none ∧
    drain_transactions 1 0 true (some (some [txAlpha])) = none ∧
    (LockedQueue.drain 1 1 true [txAlpha]).isSome = true ∧
    (drain_transactions 1 1 true (some (some [txAlpha]))).isSome = true :=
  ⟨by decide,
    claim_c9_zero_timeout_panics 1 1 true true [txAlpha]
      (some (some [txAlpha])) (by decide)⟩
